import Mathlib

/-!
Shallow embedding of the RLP codec in `src/libethereum/RLP.h` (namespace `eth`,
classes `RLP` and `RLPStream`).

A decoded node's borrowed byte view (`bytesConstRef m_data`) is modelled as a
`List Nat` of its bytes.  An unchecked indexed read `m_data[i]` past the end of
the view is out-of-bounds memory access in the C++ code; the embedding makes
every such read explicit by reading through `List.getElem?`, so a function
returns `none` exactly when the C++ code would read outside the borrowed view.
The strict accessors, which can additionally throw `RLP::BadCast`, return an
`RRes` value distinguishing a normal result, a thrown `BadCast`, and an
out-of-bounds read.
-/

namespace RLPCodec

/-- Outcome of a strict accessor: a value, a thrown `RLP::BadCast`, or an
out-of-bounds read of the borrowed byte view (undefined behaviour in C++). -/
inductive RRes (α : Type) where
  | ok : α → RRes α
  | badCast : RRes α
  | oobRead : RRes α
  deriving DecidableEq, Repr

/-- Lift an optional value (none = out-of-bounds read) into `RRes`. -/
def liftO {α : Type} : Option α → RRes α
  | some v => RRes.ok v
  | none => RRes.oobRead

/-- The first byte `m_data[0]` of a node.  The classification predicates read it
after an `assert(!isNull())`, so theorems about them carry a `d ≠ []`
hypothesis; on `[]` the value is an arbitrary placeholder. -/
def first (d : List Nat) : Nat := d.headD 0

/-- `RLP::isNull`: the view has no bytes. -/
def isNull (d : List Nat) : Bool := d.length == 0

/-- `RLP::isEmpty`: reads `m_data[0]` with no null-precondition assertion, so
the read itself can be out of bounds; modelled with an explicit checked read. -/
def isEmptyO (d : List Nat) : Option Bool :=
  (d[0]?).map (fun b => b == 0x40 || b == 0x80)

/-- `RLP::isString`: first byte in [0x40, 0x80). -/
def isString (d : List Nat) : Bool :=
  decide (0x40 ≤ first d) && decide (first d < 0x80)

/-- `RLP::isList`: first byte in [0x80, 0xc0). -/
def isList (d : List Nat) : Bool :=
  decide (0x80 ≤ first d) && decide (first d < 0xc0)

/-- `RLP::isInt`: first byte below 0x40. -/
def isInt (d : List Nat) : Bool := decide (first d < 0x40)

/-- `RLP::isSlimInt`: first byte below 0x20. -/
def isSlimInt (d : List Nat) : Bool := decide (first d < 0x20)

/-- `RLP::isFatInt`: first byte in [0x20, 0x38). -/
def isFatInt (d : List Nat) : Bool :=
  decide (0x20 ≤ first d) && decide (first d < 0x38)

/-- `RLP::isFixedInt`: first byte below 0x38. -/
def isFixedInt (d : List Nat) : Bool := decide (first d < 0x38)

/-- `RLP::isBigInt`: first byte in [0x38, 0x40). -/
def isBigInt (d : List Nat) : Bool :=
  decide (0x38 ≤ first d) && decide (first d < 0x40)

/-- `RLP::isDirectValueInt`: first byte below 0x18. -/
def isDirectValueInt (d : List Nat) : Bool := decide (first d < 0x18)

/-- `RLP::isIndirectValueInt`: first byte in [0x18, 0x38). -/
def isIndirectValueInt (d : List Nat) : Bool :=
  decide (0x18 ≤ first d) && decide (first d < 0x38)

/-- `RLP::isIndirectAddressedInt`: first byte in [0x38, 0x40). -/
def isIndirectAddressedInt (d : List Nat) : Bool :=
  decide (first d < 0x40) && decide (0x38 ≤ first d)

/-- `RLP::lengthSize`: `n = m_data[0] & 0x3f; n > 0x37 ? n - 0x37 : 0`. -/
def lengthSize (d : List Nat) : Nat :=
  let n := first d &&& 0x3f
  if n > 0x37 then n - 0x37 else 0

/-- The big-endian accumulation loop
`for (i = 0; i < s; ++i) ret = step(ret, m_data[i + o])`, shared by `items`
and `toInt`; each read is checked against the end of the view. -/
def beLoop (step : Nat → Nat → Nat) (d : List Nat) : Nat → Nat → Nat → Option Nat
  | _, 0, ret => some ret
  | o, s + 1, ret =>
    match d[o]? with
    | none => none
    | some b => beLoop step d (o + 1) s (step ret b)

/-- One step `ret = (ret << 8) | b` of the loop at arbitrary precision
(`eth::bigint`). -/
def stepBig (ret b : Nat) : Nat := (ret <<< 8) ||| b

/-- One step `ret = (ret << 8) | b` of the loop at a fixed width of `w` bits
(`eth::uint` is `w = 64`, `eth::u256` is `w = 256`): the shift wraps at the
width before the OR. -/
def stepW (w : Nat) (ret b : Nat) : Nat := ((ret <<< 8) % 2 ^ w) ||| b

/-- Modelled from the spec: `RLP::items()` is declared in the header but its
body lives in a source file that is not part of this repository snapshot.
Per the grammar table, for a direct-tier first byte the count is the low-6-bit
field itself, and for an indirect tier it is the big-endian value of the
`(field - 0x37)` bytes that follow the prefix byte. -/
def items (d : List Nat) : Option Nat :=
  let n := first d &&& 0x3f
  if n ≤ 0x37 then some n
  else beLoop stepBig d 1 (n - 0x37) 0

/-- `RLP::intSize`:
`(!isInt() || isDirectValueInt()) ? 0 : isIndirectAddressedInt() ? lengthSize() + items() : (m_data[0] - 0x17)`. -/
def intSize (d : List Nat) : Option Nat :=
  if !(isInt d) || isDirectValueInt d then some 0
  else if isIndirectAddressedInt d then (items d).map (fun it => lengthSize d + it)
  else some (first d - 0x17)

/-- `RLP::payload`: `m_data.cropped(1 + (n < 0x38 ? 0 : n - 0x37))` with
`n = m_data[0] & 0x3f`.  The one-argument `cropped` of the byte view drops a
prefix of the view (modelled from the spec's ByteView, whose header is not in
this snapshot: slicing keeps the length within the remaining bytes). -/
def payload (d : List Nat) : List Nat :=
  let n := first d &&& 0x3f
  d.drop (1 + (if n < 0x38 then 0 else n - 0x37))

/-- `RLP::toInt<_T>`, parameterised by the step function of the accumulation
loop (which carries the width of `_T`):
reads the first byte's category, returns 0 when neither string nor integer,
the first byte itself for a direct-value integer, and otherwise runs the loop
over `s` bytes starting at offset `lengthSize() + 1`. -/
def toIntG (step : Nat → Nat → Nat) (d : List Nat) : Option Nat :=
  if !(isString d) && !(isInt d) then some 0
  else if isDirectValueInt d then some (first d)
  else do
    let s ←
      if isInt d then (intSize d).map (fun i => i - lengthSize d)
      else if isString d then items d
      else some 0
    beLoop step d (lengthSize d + 1) s 0

/-- `RLP::toSlimInt` = `toInt<uint>` (64-bit machine word). -/
def toSlimInt (d : List Nat) : Option Nat := toIntG (stepW 64) d

/-- `RLP::toFatInt` = `toInt<u256>` (256-bit fixed width). -/
def toFatInt (d : List Nat) : Option Nat := toIntG (stepW 256) d

/-- `RLP::toBigInt` = `toInt<bigint>` (arbitrary precision). -/
def toBigInt (d : List Nat) : Option Nat := toIntG stepBig d

/-- `RLP::toString`: `if (!isString()) return ""; return payload().cropped(0, items()).toString()`.
The two-argument `cropped(0, items())` takes that many leading bytes of the
payload view (modelled from the spec's ByteView as for `payload`). -/
def toString (d : List Nat) : Option (List Nat) :=
  if !(isString d) then some []
  else (items d).map (fun it => (payload d).take it)

/-- `RLP::toStringStrict`: throws `BadCast` when not a string. -/
def toStringStrict (d : List Nat) : RRes (List Nat) :=
  if !(isString d) then RRes.badCast
  else liftO ((items d).map (fun it => (payload d).take it))

/-- `RLP::itemCount`: `isList() ? items() : 0`. -/
def itemCount (d : List Nat) : RRes Nat :=
  if isList d then liftO (items d) else RRes.ok 0

/-- `RLP::itemCountStrict`: `if (!isList()) throw BadCast(); return items()`. -/
def itemCountStrict (d : List Nat) : RRes Nat :=
  if !(isList d) then RRes.badCast else liftO (items d)

/-- `RLP::toSlimIntStrict`: `if (!isSlimInt()) throw BadCast(); return toInt<uint>()`. -/
def toSlimIntStrict (d : List Nat) : RRes Nat :=
  if !(isSlimInt d) then RRes.badCast else liftO (toSlimInt d)

/-- `RLP::toFatIntStrict`: `if (!isFatInt() && !isSlimInt()) throw BadCast(); return toInt<u256>()`. -/
def toFatIntStrict (d : List Nat) : RRes Nat :=
  if !(isFatInt d) && !(isSlimInt d) then RRes.badCast else liftO (toFatInt d)

/-- `RLP::toBigIntStrict`: `if (!isInt()) throw BadCast(); return toInt<bigint>()`. -/
def toBigIntStrict (d : List Nat) : RRes Nat :=
  if !(isInt d) then RRes.badCast else liftO (toBigInt d)

/-- `RLP::operator==(std::string const&)`: `isString() && toString() == _s`
(short-circuit: `toString` runs only when the node is a string). -/
def eqStr (d : List Nat) (s : List Nat) : Option Bool :=
  if !(isString d) then some false
  else (toString d).map (fun t => t == s)

/-- `RLP::operator!=(std::string const&)`: `isString() && toString() != _s`. -/
def neStr (d : List Nat) (s : List Nat) : Option Bool :=
  if !(isString d) then some false
  else (toString d).map (fun t => t != s)

/-- `RLP::operator==(uint const&)`: `(isInt() || isString()) && toSlimInt() == _i`. -/
def eqUInt (d : List Nat) (i : Nat) : Option Bool :=
  if !(isInt d || isString d) then some false
  else (toSlimInt d).map (fun v => v == i)

/-- `RLP::operator!=(uint const&)`: `(isInt() || isString()) && toSlimInt() != _i`. -/
def neUInt (d : List Nat) (i : Nat) : Option Bool :=
  if !(isInt d || isString d) then some false
  else (toSlimInt d).map (fun v => v != i)

/-- The loop of `RLPStream::bytesRequired` after the initial shift:
`for (; _i != 0; ++i, _i >>= 8) {}` starting from the count `acc`. -/
def bytesRequiredGo (i acc : Nat) : Nat :=
  if h : i = 0 then acc else bytesRequiredGo (i >>> 8) (acc + 1)
  decreasing_by
    simp only [Nat.shiftRight_eq_div_pow]
    exact Nat.div_lt_self (Nat.pos_of_ne_zero h) (by norm_num)

/-- `RLPStream::bytesRequired`: `_i >>= 8; uint i = 1; for (; _i != 0; ++i, _i >>= 8) {}; return i`. -/
def bytesRequired (i : Nat) : Nat := bytesRequiredGo (i >>> 8) 1

/-- `RLPStream::pushInt(_i, _br)`: grows the output by `_br` zero-initialised
bytes and writes `(byte)_i` groups from the back while `_i` is nonzero, i.e.
appends the `_br`-byte big-endian representation of `_i` (mod `256 ^ _br`). -/
def pushIntBytes (v : Nat) : Nat → List Nat
  | 0 => []
  | k + 1 => pushIntBytes (v >>> 8) k ++ [v % 256]

/-- Modelled from the spec: `RLPStream::append(std::string const&)` is declared
in the header but its body is not in this snapshot.  Per the spec it writes the
String prefix with the count field set to the byte length (direct form
`0x40 + len` when the length is at most 0x37, otherwise the indirect prefix
`0x77 + lengthOfLength` followed by the minimal big-endian length bytes) and
then the raw bytes. -/
def appendString (s : List Nat) : List Nat :=
  if s.length ≤ 0x37 then (0x40 + s.length) :: s
  else (0x77 + bytesRequired s.length) :: (pushIntBytes s.length (bytesRequired s.length) ++ s)

/-- Modelled from the spec: `RLPStream::append(uint)` is declared in the header
but its body is not in this snapshot.  Per the spec, values below 0x18 use the
one-byte direct form and larger machine-word values the indirect-value form
`0x17 + byteCount` followed by the minimal big-endian bytes. -/
def appendInt (v : Nat) : List Nat :=
  if v < 0x18 then [v]
  else (0x17 + bytesRequired v) :: pushIntBytes v (bytesRequired v)

/-- Big-endian assembly of a byte sequence by repeated shift-left-by-8 and OR,
as the spec describes the integer interpretation of payload bytes.  Used to
state the claims; to be compared against the decoder's loop. -/
def beAssemble (l : List Nat) : Nat := l.foldl (fun a b => (a <<< 8) ||| b) 0

theorem beAssemble_eq_foldl (l : List Nat) : beAssemble l = l.foldl stepBig 0 := rfl

theorem and63_eq_mod (x : Nat) : x &&& 0x3f = x % 64 := by
  have h := Nat.and_pow_two_sub_one_eq_mod x 6
  norm_num at h
  exact h

theorem stepBig_eq (a b : Nat) (hb : b < 256) : stepBig a b = a * 256 + b := by
  have hb' : b < 2 ^ 8 := by omega
  have h := Nat.mul_add_lt_is_or hb' a
  rw [stepBig, Nat.shiftLeft_eq, Nat.mul_comm a (2 ^ 8), ← h]

theorem liftO_ne_badCast {α : Type} (o : Option α) : liftO o ≠ RRes.badCast := by
  cases o <;> simp [liftO]

theorem beLoop_eq_fold (step : Nat → Nat → Nat) (d : List Nat) :
    ∀ (s o ret : Nat), o + s ≤ d.length →
      beLoop step d o s ret = some (((d.drop o).take s).foldl step ret) := by
  intro s
  induction s with
  | zero =>
    intro o ret _
    simp [beLoop]
  | succ n ih =>
    intro o ret h
    have ho : o < d.length := by omega
    have hd : d.drop o = d[o] :: d.drop (o + 1) := List.drop_eq_getElem_cons ho
    rw [beLoop, List.getElem?_eq_getElem ho, hd, List.take_succ_cons, List.foldl_cons]
    exact ih (o + 1) (step ret d[o]) (by omega)

theorem pushIntBytes_length (k : Nat) : ∀ v, (pushIntBytes v k).length = k := by
  induction k with
  | zero => intro v; simp [pushIntBytes]
  | succ n ih => intro v; simp [pushIntBytes, ih]

theorem pushIntBytes_foldl (k : Nat) :
    ∀ v a, (pushIntBytes v k).foldl stepBig a = a * 256 ^ k + v % 256 ^ k := by
  induction k with
  | zero =>
    intro v a
    simp [pushIntBytes, Nat.mod_one]
  | succ n ih =>
    intro v a
    rw [pushIntBytes, List.foldl_append, ih (v >>> 8) a, List.foldl_cons, List.foldl_nil,
      stepBig_eq _ _ (Nat.mod_lt _ (by norm_num))]
    have h1 : v >>> 8 = v / 256 := by
      simp [Nat.shiftRight_eq_div_pow]
    have h2 : (256 : Nat) ^ (n + 1) = 256 * 256 ^ n := by ring
    rw [h1, h2, Nat.mod_mul]
    ring

theorem beAssemble_pushIntBytes (v k : Nat) (h : v < 256 ^ k) :
    beAssemble (pushIntBytes v k) = v := by
  rw [beAssemble_eq_foldl, pushIntBytes_foldl k v 0, Nat.zero_mul, Nat.zero_add,
    Nat.mod_eq_of_lt h]

theorem bytesRequiredGo_eq (i : Nat) :
    ∀ acc, bytesRequiredGo i acc = acc + (if i = 0 then 0 else Nat.log 256 i + 1) := by
  induction i using Nat.strong_induction_on with
  | _ i ih =>
    intro acc
    rw [bytesRequiredGo]
    by_cases h : i = 0
    · simp [h]
    · have hpos : 0 < i := Nat.pos_of_ne_zero h
      have hdiv : i >>> 8 = i / 256 := by
        simp [Nat.shiftRight_eq_div_pow]
      have hlt : i >>> 8 < i := by
        rw [hdiv]
        exact Nat.div_lt_self hpos (by norm_num)
      rw [dif_neg h, ih (i >>> 8) hlt (acc + 1)]
      by_cases h2 : i >>> 8 = 0
      · have hsmall : i < 256 := by
          rw [hdiv] at h2
          omega
        have hlog : Nat.log 256 i = 0 := Nat.log_eq_zero_iff.mpr (Or.inl hsmall)
        simp [h2, h, hlog]
      · have hbig : 256 ≤ i := by
          rw [hdiv] at h2
          omega
        have hlog1 : 0 < Nat.log 256 i := Nat.log_pos (by norm_num) hbig
        have hld : Nat.log 256 (i / 256) = Nat.log 256 i - 1 := Nat.log_div_base 256 i
        rw [if_neg h2, if_neg h, hdiv, hld]
        omega

theorem bytesRequired_eq_log (v : Nat) : bytesRequired v = Nat.log 256 v + 1 := by
  rw [bytesRequired, bytesRequiredGo_eq]
  have hdiv : v >>> 8 = v / 256 := by
    simp [Nat.shiftRight_eq_div_pow]
  by_cases h : v >>> 8 = 0
  · have hsmall : v < 256 := by
      rw [hdiv] at h
      omega
    have hlog : Nat.log 256 v = 0 := Nat.log_eq_zero_iff.mpr (Or.inl hsmall)
    simp [h, hlog]
  · have hbig : 256 ≤ v := by
      rw [hdiv] at h
      omega
    have hlog1 : 0 < Nat.log 256 v := Nat.log_pos (by norm_num) hbig
    have hld : Nat.log 256 (v / 256) = Nat.log 256 v - 1 := Nat.log_div_base 256 v
    rw [if_neg h, hdiv, hld]
    omega

theorem lt_pow_bytesRequired (v : Nat) : v < 256 ^ bytesRequired v := by
  rw [bytesRequired_eq_log]
  exact Nat.lt_pow_succ_log_self (by norm_num) v

theorem bytesRequired_le_of_lt_pow (v k : Nat) (hk : 1 ≤ k) (h : v < 256 ^ k) :
    bytesRequired v ≤ k := by
  rw [bytesRequired_eq_log]
  by_cases hv : v = 0
  · simp [hv, Nat.log_zero_right]
    omega
  · have := Nat.log_lt_of_lt_pow hv h
    omega

theorem pow_bytesRequired_pred_le (v : Nat) (hv : v ≠ 0) :
    256 ^ (bytesRequired v - 1) ≤ v := by
  rw [bytesRequired_eq_log]
  simpa using Nat.pow_log_le_self 256 hv

/-- Claim C1 (code bug): a node whose first byte claims more payload bytes than
the buffer holds is supposed to produce the strict-path type-mismatch error,
but `toInt` runs its loop over `m_data[i + o]` with no bounds check: on the
one-byte buffer `[0x19]`, which announces two payload bytes, the lenient and
strict integer accessors all read past the end of the borrowed view (modelled
as `none` / `RRes.oobRead`) and none of them raises `BadCast`. -/
theorem C1_overlong_length_reads_oob :
    toBigInt [0x19] = none ∧
    toBigIntStrict [0x19] = RRes.oobRead ∧
    toSlimIntStrict [0x19] = RRes.oobRead ∧
    toFatIntStrict [0x19] = RRes.oobRead ∧
    toBigIntStrict [0x19] ≠ RRes.badCast := by
  decide

/-- Claim C2: for a non-null node the category predicates are decided purely by
the first byte — `isInt` iff it lies in 0x00–0x3F, `isString` iff in 0x40–0x7F,
`isList` iff in 0x80–0xBF; for a first byte below 0xC0 exactly one of the three
holds, and for 0xC0 and above none holds. -/
theorem C2_category_predicates (d : List Nat) (hd : d ≠ []) (hb : first d < 256) :
    (isInt d = true ↔ first d ≤ 0x3f) ∧
    (isString d = true ↔ 0x40 ≤ first d ∧ first d ≤ 0x7f) ∧
    (isList d = true ↔ 0x80 ≤ first d ∧ first d ≤ 0xbf) ∧
    (first d < 0xc0 →
      (isString d = true ∧ isList d = false ∧ isInt d = false) ∨
      (isString d = false ∧ isList d = true ∧ isInt d = false) ∨
      (isString d = false ∧ isList d = false ∧ isInt d = true)) ∧
    (0xc0 ≤ first d → isString d = false ∧ isList d = false ∧ isInt d = false) := by
  simp only [isInt, isString, isList, Bool.and_eq_true, decide_eq_true_eq,
    Bool.and_eq_false_iff, decide_eq_false_iff_not]
  omega

/-- Claim C2 witness: the predicate characterisation applied to the decoded
string node `[0x41, 0x41]`. -/
theorem C2_category_predicates_witness :
    isString [0x41, 0x41] = true ∧ isList [0x41, 0x41] = false ∧
    isInt [0x41, 0x41] = false := by
  have h := (C2_category_predicates [0x41, 0x41] (by decide) (by decide)).2.2.2.1
    (by decide)
  rcases h with h | h | h
  · exact h
  · exact absurd h.1 (by decide)
  · exact absurd h.1 (by decide)

/-- Claim C4: the three strict integer conversions throw `BadCast` exactly by
accepted width tier — `toSlimIntStrict` iff the first byte is not below 0x20,
`toFatIntStrict` iff it is not below 0x38, `toBigIntStrict` iff the node is not
in the Integer category (first byte not below 0x40) — and when no `BadCast` is
thrown each returns its lenient `toInt` value. -/
theorem C4_strict_int_conversions (d : List Nat) (hd : d ≠ []) :
    (toSlimIntStrict d = RRes.badCast ↔ ¬ first d < 0x20) ∧
    (toFatIntStrict d = RRes.badCast ↔ ¬ first d < 0x38) ∧
    (toBigIntStrict d = RRes.badCast ↔ ¬ (isInt d = true)) ∧
    (isInt d = true ↔ first d < 0x40) ∧
    (first d < 0x20 → toSlimIntStrict d = liftO (toSlimInt d)) ∧
    (first d < 0x38 → toFatIntStrict d = liftO (toFatInt d)) ∧
    (first d < 0x40 → toBigIntStrict d = liftO (toBigInt d)) := by
  refine ⟨?_, ?_, ?_, ?_, ?_, ?_, ?_⟩
  · by_cases h : first d < 0x20
    · have hs : isSlimInt d = true := by simp [isSlimInt]; omega
      simp [toSlimIntStrict, hs, liftO_ne_badCast, h]
    · have hs : isSlimInt d = false := by simp [isSlimInt]; omega
      simp [toSlimIntStrict, hs, h]
  · by_cases h : first d < 0x38
    · have hc : (!(isFatInt d) && !(isSlimInt d)) = false := by
        simp [isFatInt, isSlimInt]
        omega
      simp [toFatIntStrict, hc, liftO_ne_badCast, h]
    · have hc : (!(isFatInt d) && !(isSlimInt d)) = true := by
        simp [isFatInt, isSlimInt]
        omega
      simp [toFatIntStrict, hc, h]
  · by_cases h : isInt d = true
    · simp [toBigIntStrict, h, liftO_ne_badCast]
    · simp [toBigIntStrict, Bool.eq_false_iff.mpr h, h]
  · simp [isInt]
  · intro h
    have hs : isSlimInt d = true := by simp [isSlimInt]; omega
    simp [toSlimIntStrict, hs]
  · intro h
    have hc : (!(isFatInt d) && !(isSlimInt d)) = false := by
      simp [isFatInt, isSlimInt]
      omega
    simp [toFatIntStrict, hc]
  · intro h
    have hi : isInt d = true := by simp [isInt]; omega
    simp [toBigIntStrict, hi]

/-- Claim C4 witness: a slim integer node `[0x01]` converts without error and a
fat-only node `[0x20, ...]` makes `toSlimIntStrict` throw. -/
theorem C4_strict_int_conversions_witness :
    toSlimIntStrict [0x01] = liftO (toSlimInt [0x01]) ∧
    (toSlimIntStrict [0x20] = RRes.badCast ↔ ¬ (0x20 : Nat) < 0x20) := by
  constructor
  · exact (C4_strict_int_conversions [0x01] (by decide)).2.2.2.2.1 (by decide)
  · exact (C4_strict_int_conversions [0x20] (by decide)).1

/-- Claim C5: on a non-null node that is not a list, the lenient `itemCount`
returns 0 while `itemCountStrict` throws `BadCast`; on a list node both agree
and no `BadCast` is thrown. -/
theorem C5_itemCount_lenient_vs_strict (d : List Nat) (hd : d ≠ []) :
    (isList d = false → itemCount d = RRes.ok 0 ∧ itemCountStrict d = RRes.badCast) ∧
    (isList d = true →
      itemCount d = itemCountStrict d ∧ itemCountStrict d ≠ RRes.badCast) := by
  constructor
  · intro h
    simp [itemCount, itemCountStrict, h]
  · intro h
    simp [itemCount, itemCountStrict, h, liftO_ne_badCast]

/-- Claim C5 witness: the string node `[0x43, 100, 111, 103]` has lenient item
count 0 and a strict type error; the list node `[0x82, 0x01, 0x02]` has two
items either way. -/
theorem C5_itemCount_witness :
    (itemCount [0x43, 100, 111, 103] = RRes.ok 0 ∧
      itemCountStrict [0x43, 100, 111, 103] = RRes.badCast) ∧
    itemCount [0x82, 0x01, 0x02] = itemCountStrict [0x82, 0x01, 0x02] := by
  constructor
  · exact (C5_itemCount_lenient_vs_strict [0x43, 100, 111, 103] (by decide)).1
      (by decide)
  · exact ((C5_itemCount_lenient_vs_strict [0x82, 0x01, 0x02] (by decide)).2
      (by decide)).1

/-- Claim C6: best-effort equality against a literal is true exactly when the
node's category matches the literal's kind (String for a string literal,
Integer-or-String for an integer literal) and the lenient conversion equals the
literal; a category mismatch yields `false` without touching the payload. -/
theorem C6_best_effort_equality (d s : List Nat) (i : Nat) (hd : d ≠ []) :
    (isString d = false → eqStr d s = some false) ∧
    (eqStr d s = some true ↔ isString d = true ∧ toString d = some s) ∧
    ((isInt d || isString d) = false → eqUInt d i = some false) ∧
    (eqUInt d i = some true ↔ (isInt d || isString d) = true ∧ toSlimInt d = some i) := by
  refine ⟨?_, ?_, ?_, ?_⟩
  · intro h
    simp [eqStr, h]
  · by_cases h : isString d = true
    · simp only [eqStr, h, Bool.not_true, Bool.false_eq_true, if_false, true_and]
      cases ht : toString d with
      | none => simp
      | some t => simp
    · have h' : isString d = false := Bool.eq_false_iff.mpr h
      simp [eqStr, h']
  · intro h
    simp [eqUInt, h]
  · by_cases h : (isInt d || isString d) = true
    · simp only [eqUInt, h, Bool.not_true, Bool.false_eq_true, if_false, true_and]
      cases ht : toSlimInt d with
      | none => simp
      | some v => simp
    · have h' : (isInt d || isString d) = false := Bool.eq_false_iff.mpr h
      simp [eqUInt, h']

/-- Claim C6 witness: the list node `[0x80]` compares unequal to the string
literal `"A"` without an error, and the string node `[0x41, 0x41]` compares
equal to `"A"`. -/
theorem C6_best_effort_equality_witness :
    eqStr [0x80] [0x41] = some false ∧ eqStr [0x41, 0x41] [0x41] = some true := by
  constructor
  · exact (C6_best_effort_equality [0x80] [0x41] 0 (by decide)).1 (by decide)
  · exact (C6_best_effort_equality [0x41, 0x41] [0x41] 0 (by decide)).2.1.mpr
      ⟨by decide, by decide⟩

/-- Claim C9: `isEmpty` reads `m_data[0]` with no null-precondition assertion,
so its out-of-range read is reachable exactly on the null node; on a non-null
node it returns true iff the first byte is exactly 0x40 or exactly 0x80. -/
theorem C9_isEmpty_unguarded (d : List Nat) :
    (isEmptyO d = none ↔ d = []) ∧
    (d ≠ [] → isEmptyO d = some ((first d == 0x40) || (first d == 0x80))) := by
  cases d with
  | nil => simp [isEmptyO]
  | cons a t => simp [isEmptyO, first]

/-- Claim C9 witness: the empty-string node `[0x40]` is non-null and empty, and
the null node makes the read go out of range. -/
theorem C9_isEmpty_unguarded_witness :
    isEmptyO [0x40] = some true ∧ isEmptyO ([] : List Nat) = none := by
  constructor
  · exact ((C9_isEmpty_unguarded [0x40]).2 (by decide)).trans (by decide)
  · exact (C9_isEmpty_unguarded ([] : List Nat)).1.mpr rfl

/-- Claim C10: the best-effort inequality is not the negation of the equality:
on a category mismatch both `operator==` and `operator!=` return false, because
`operator!=` also conjoins the category test. -/
theorem C10_inequality_not_negation (d s : List Nat) (i : Nat) (hd : d ≠ []) :
    (isString d = false → eqStr d s = some false ∧ neStr d s = some false) ∧
    ((isInt d || isString d) = false → eqUInt d i = some false ∧ neUInt d i = some false) := by
  constructor
  · intro h
    simp [eqStr, neStr, h]
  · intro h
    simp [eqUInt, neUInt, h]

/-- Claim C10 witness: the list node `[0x80]` compared with a string literal
yields false for both the equality and the inequality operator. -/
theorem C10_inequality_not_negation_witness :
    eqStr [0x80] [] = some false ∧ neStr [0x80] [] = some false := by
  exact (C10_inequality_not_negation [0x80] [] 0 (by decide)).1 (by decide)

/-- Claim C7 (code bug): `bytesRequired` is minimal for nonzero values — on
255, 256 and 65536 it returns 1, 2 and 3, the least byte counts that fit, and
`appendInt` keeps 0 in the one-byte direct form — but on the input 0 it
returns 1, contradicting its own doc comment (`@returns 0 if _i is zero`) and
the claim. -/
theorem C7_bytesRequired_at_zero :
    bytesRequired 0 = 1 ∧ bytesRequired 255 = 1 ∧ bytesRequired 256 = 2 ∧
    bytesRequired 65535 = 2 ∧ bytesRequired 65536 = 3 ∧ appendInt 0 = [0x00] := by
  have l0 : Nat.log 256 0 = 0 := Nat.log_zero_right 256
  have l255 : Nat.log 256 255 = 0 := Nat.log_eq_zero_iff.mpr (Or.inl (by norm_num))
  have l256 : Nat.log 256 256 = 1 :=
    Nat.log_eq_of_pow_le_of_lt_pow (by norm_num) (by norm_num)
  have l65535 : Nat.log 256 65535 = 1 :=
    Nat.log_eq_of_pow_le_of_lt_pow (by norm_num) (by norm_num)
  have l65536 : Nat.log 256 65536 = 2 :=
    Nat.log_eq_of_pow_le_of_lt_pow (by norm_num) (by norm_num)
  refine ⟨?_, ?_, ?_, ?_, ?_, rfl⟩ <;> rw [bytesRequired_eq_log] <;> omega

/-- Claim C3: the lenient `toInt` (shown at arbitrary precision) returns 0 when
the node is neither Integer nor String; the first byte itself for a
direct-value Integer (first byte below 0x18); and otherwise the big-endian
shift-and-OR assembly of the payload bytes — the `(first byte - 0x17)` bytes
after the prefix for an indirect-value Integer, the length-addressed payload
bytes for an indirect-addressed Integer, and the string's payload bytes (after
any length bytes) for a String — whenever those bytes lie inside the buffer. -/
theorem C3_toInt_lenient (d : List Nat) (hd : d ≠ []) :
    (0x80 ≤ first d → toBigInt d = some 0) ∧
    (first d < 0x18 → toBigInt d = some (first d)) ∧
    (0x18 ≤ first d → first d < 0x38 → 1 + (first d - 0x17) ≤ d.length →
      toBigInt d = some (beAssemble ((d.drop 1).take (first d - 0x17)))) ∧
    (0x38 ≤ first d → first d < 0x40 →
      first d - 0x37 + 1 + beAssemble ((d.drop 1).take (first d - 0x37)) ≤ d.length →
      toBigInt d = some (beAssemble ((d.drop (first d - 0x37 + 1)).take
        (beAssemble ((d.drop 1).take (first d - 0x37)))))) ∧
    (0x40 ≤ first d → first d < 0x78 → 1 + (first d - 0x40) ≤ d.length →
      toBigInt d = some (beAssemble ((d.drop 1).take (first d - 0x40)))) ∧
    (0x78 ≤ first d → first d < 0x80 →
      first d - 0x77 + 1 + beAssemble ((d.drop 1).take (first d - 0x77)) ≤ d.length →
      toBigInt d = some (beAssemble ((d.drop (first d - 0x77 + 1)).take
        (beAssemble ((d.drop 1).take (first d - 0x77)))))) := by
  refine ⟨?_, ?_, ?_, ?_, ?_, ?_⟩
  · intro h
    have h1 : (!(isString d) && !(isInt d)) = true := by
      simp [isString, isInt]
      omega
    simp [toBigInt, toIntG, h1]
  · intro h
    have h1 : (!(isString d) && !(isInt d)) = false := by
      simp [isString, isInt]
      omega
    have h2 : isDirectValueInt d = true := by
      simp [isDirectValueInt]
      omega
    simp [toBigInt, toIntG, h1, h2]
  · intro h1 h2 hlen
    have h63 : first d &&& 0x3f = first d := by
      rw [and63_eq_mod]
      omega
    have hS : isString d = false := by
      simp [isString]
      omega
    have hI : isInt d = true := by
      simp [isInt]
      omega
    have hD : isDirectValueInt d = false := by
      simp [isDirectValueInt]
      omega
    have hIA : isIndirectAddressedInt d = false := by
      simp [isIndirectAddressedInt]
      omega
    have hls : lengthSize d = 0 := by
      rw [lengthSize, h63, if_neg (by omega)]
    have hIS : intSize d = some (first d - 0x17) := by
      simp [intSize, hI, hD, hIA]
    have hbe := beLoop_eq_fold stepBig d (first d - 0x17) 1 0 (by omega)
    simp [toBigInt, toIntG, hS, hI, hD, hIS, hls, hbe, beAssemble_eq_foldl]
  · intro h1 h2 hlen
    have h63 : first d &&& 0x3f = first d := by
      rw [and63_eq_mod]
      omega
    have hS : isString d = false := by
      simp [isString]
      omega
    have hI : isInt d = true := by
      simp [isInt]
      omega
    have hD : isDirectValueInt d = false := by
      simp [isDirectValueInt]
      omega
    have hIA : isIndirectAddressedInt d = true := by
      simp [isIndirectAddressedInt]
      omega
    have hls : lengthSize d = first d - 0x37 := by
      rw [lengthSize, h63, if_pos (by omega)]
    have hIt : items d = some (beAssemble ((d.drop 1).take (first d - 0x37))) := by
      rw [items, h63, if_neg (by omega),
        beLoop_eq_fold stepBig d (first d - 0x37) 1 0 (by omega), beAssemble_eq_foldl]
    have hIS : intSize d =
        some (first d - 0x37 + beAssemble ((d.drop 1).take (first d - 0x37))) := by
      simp [intSize, hI, hD, hIA, hIt, hls]
    have hbe := beLoop_eq_fold stepBig d (beAssemble ((d.drop 1).take (first d - 0x37)))
      (first d - 0x37 + 1) 0 (by omega)
    simp only [beAssemble_eq_foldl, List.drop_one] at hbe
    simp [toBigInt, toIntG, hS, hI, hD, hIS, hls, hbe, beAssemble_eq_foldl,
      Nat.add_sub_cancel_left]
  · intro h1 h2 hlen
    have h63 : first d &&& 0x3f = first d - 0x40 := by
      rw [and63_eq_mod]
      omega
    have hS : isString d = true := by
      simp [isString]
      omega
    have hI : isInt d = false := by
      simp [isInt]
      omega
    have hD : isDirectValueInt d = false := by
      simp [isDirectValueInt]
      omega
    have hls : lengthSize d = 0 := by
      rw [lengthSize, h63, if_neg (by omega)]
    have hIt : items d = some (first d - 0x40) := by
      rw [items, h63, if_pos (by omega)]
    have hbe := beLoop_eq_fold stepBig d (first d - 0x40) 1 0 (by omega)
    simp [toBigInt, toIntG, hS, hI, hD, hIt, hls, hbe, beAssemble_eq_foldl]
  · intro h1 h2 hlen
    have h63 : first d &&& 0x3f = first d - 0x40 := by
      rw [and63_eq_mod]
      omega
    have hsub : first d - 0x40 - 0x37 = first d - 0x77 := by omega
    have hS : isString d = true := by
      simp [isString]
      omega
    have hI : isInt d = false := by
      simp [isInt]
      omega
    have hD : isDirectValueInt d = false := by
      simp [isDirectValueInt]
      omega
    have hls : lengthSize d = first d - 0x77 := by
      rw [lengthSize, h63, if_pos (by omega), hsub]
    have hIt : items d = some (beAssemble ((d.drop 1).take (first d - 0x77))) := by
      rw [items, h63, if_neg (by omega), hsub,
        beLoop_eq_fold stepBig d (first d - 0x77) 1 0 (by omega), beAssemble_eq_foldl]
    have hbe := beLoop_eq_fold stepBig d (beAssemble ((d.drop 1).take (first d - 0x77)))
      (first d - 0x77 + 1) 0 (by omega)
    simp only [beAssemble_eq_foldl, List.drop_one] at hbe
    simp [toBigInt, toIntG, hS, hI, hD, hIt, hls, hbe, beAssemble_eq_foldl]

/-- Claim C3 witness: the indirect-value integer node `[0x19, 0x01, 0x00]`
decodes to 256 by big-endian assembly of its two payload bytes. -/
theorem C3_toInt_lenient_witness : toBigInt [0x19, 0x01, 0x00] = some 256 := by
  have h := (C3_toInt_lenient [0x19, 0x01, 0x00] (by decide)).2.2.1
    (by decide) (by decide) (by decide)
  exact h.trans (by decide)

/-- Claim C8: string round-trip — decoding the bytes produced by appending a
byte string `s` (of any machine-word-sized length, including the empty string)
yields a String node whose `toString` returns `s`; the empty string encodes to
the single byte 0x40 and `"dog"` to `[0x43, 'd', 'o', 'g']`. -/
theorem C8_string_roundtrip (s : List Nat) (hlen : s.length < 2 ^ 64) :
    isString (appendString s) = true ∧ toString (appendString s) = some s ∧
    appendString [] = [0x40] ∧ appendString [100, 111, 103] = [0x43, 100, 111, 103] := by
  have main : isString (appendString s) = true ∧ toString (appendString s) = some s := by
    by_cases hsl : s.length ≤ 0x37
    · have he : appendString s = (0x40 + s.length) :: s := by
        rw [appendString, if_pos hsl]
      have hf : first (appendString s) = 0x40 + s.length := by
        rw [he]
        rfl
      have hS : isString (appendString s) = true := by
        simp [isString, hf]
        omega
      have h63 : (0x40 + s.length) &&& 0x3f = s.length := by
        rw [and63_eq_mod]
        omega
      have hIt : items (appendString s) = some s.length := by
        rw [items, hf, h63, if_pos hsl]
      have hP : payload (appendString s) = s := by
        rw [payload, hf, h63, if_pos (by omega), he]
        simp
      have hTS : toString (appendString s) = some s := by
        simp [toString, hS, hIt, hP]
      exact ⟨hS, hTS⟩
    · have hbr1 : 1 ≤ bytesRequired s.length := by
        rw [bytesRequired_eq_log]
        omega
      have hbr8 : bytesRequired s.length ≤ 8 := by
        refine bytesRequired_le_of_lt_pow s.length 8 (by norm_num) ?_
        have h8 : (256 : Nat) ^ 8 = 2 ^ 64 := by norm_num
        omega
      have he : appendString s =
          (0x77 + bytesRequired s.length) ::
            (pushIntBytes s.length (bytesRequired s.length) ++ s) := by
        rw [appendString, if_neg hsl]
      have hplen : (pushIntBytes s.length (bytesRequired s.length)).length =
          bytesRequired s.length := pushIntBytes_length _ _
      have hlen' : (appendString s).length = 1 + bytesRequired s.length + s.length := by
        rw [he]
        simp [hplen]
        omega
      have hf : first (appendString s) = 0x77 + bytesRequired s.length := by
        rw [he]
        rfl
      have hS : isString (appendString s) = true := by
        simp [isString, hf]
        omega
      have h63 : (0x77 + bytesRequired s.length) &&& 0x3f =
          0x37 + bytesRequired s.length := by
        rw [and63_eq_mod]
        omega
      have hsub : 0x37 + bytesRequired s.length - 0x37 = bytesRequired s.length := by
        omega
      have htake : ((appendString s).drop 1).take (bytesRequired s.length) =
          pushIntBytes s.length (bytesRequired s.length) := by
        rw [he, List.drop_one, List.tail_cons]
        exact List.take_left' hplen
      have hfold : List.foldl stepBig 0 (pushIntBytes s.length (bytesRequired s.length)) =
          s.length := by
        have h := beAssemble_pushIntBytes s.length (bytesRequired s.length)
          (lt_pow_bytesRequired s.length)
        rwa [beAssemble_eq_foldl] at h
      have hIt : items (appendString s) = some s.length := by
        rw [items, hf, h63, if_neg (by omega), hsub,
          beLoop_eq_fold stepBig (appendString s) (bytesRequired s.length) 1 0
            (by rw [hlen']; omega),
          htake, hfold]
      have hP : payload (appendString s) = s := by
        rw [payload, hf, h63, if_neg (by omega), hsub, he]
        have h1br : 1 + bytesRequired s.length = bytesRequired s.length + 1 := by omega
        rw [h1br, List.drop_succ_cons]
        exact List.drop_left' hplen
      have hTS : toString (appendString s) = some s := by
        simp [toString, hS, hIt, hP]
      exact ⟨hS, hTS⟩
  exact ⟨main.1, main.2, by decide, by decide⟩

/-- Claim C8 witness: the round trip applied to the string `"dog"`. -/
theorem C8_string_roundtrip_witness :
    toString (appendString [100, 111, 103]) = some [100, 111, 103] := by
  exact (C8_string_roundtrip [100, 111, 103] (by norm_num)).2.1

end RLPCodec
